import Mathlib

/-!
Shallow embedding of the DuckDB-backed result-cache subsystem
(`src/duckdb_manager.py`, class `DuckDBManager`) of the
geotab-ace-mcp-demo repository, together with proofs settling the
frozen claims C1..C10 about its specification.

Strings are modelled as `List Char`.  Python string and `re` operations
used by the code (`str.strip`, `str.upper`, `str.rstrip(';')`,
`str.startswith`, substring containment via `in`, and the word-boundary
regex searches) are modelled for the ASCII fragment the code works
with.  Timestamps (`datetime.now()`, SQL `CURRENT_TIMESTAMP`) are
modelled as an abstract instant of type `Int`, supplied by the caller
as a `nowT` argument.  The external DuckDB engine's evaluation of a
caller-supplied SQL statement is an oracle parameter
`engine : List Char -> Except (List Char) (List Row)`; the semantics of
the wrapper statement `SELECT * FROM (<q>) AS subquery LIMIT n` emitted
by `query` is `List.take n` applied to the inner statement's rows, and
the semantics of `SELECT DISTINCT *` over a `UNION ALL` chain emitted
by `consolidate_datasets` is `List.dedup` of the concatenated rows.
Python exceptions are modelled with `Except`; functions that catch all
exceptions internally (such as `_drop_table` and `_get_table_size`)
are total functions in the model, exactly as they never propagate an
exception in the source.
-/

namespace DuckDBManager

/-- A character counted as a word character by the Python regexes
`[^a-zA-Z0-9_]`, `\b` and the table-name pattern. -/
def isWordChar (c : Char) : Bool :=
  c.isAlpha || c.isDigit || c == '_'

/-- Model of Python `str.strip()` (ASCII whitespace fragment). -/
def pyStrip (s : List Char) : List Char :=
  ((s.dropWhile Char.isWhitespace).reverse.dropWhile Char.isWhitespace).reverse

/-- Model of Python `str.upper()` on the ASCII fragment. -/
def asciiUpper (s : List Char) : List Char :=
  s.map Char.toUpper

/-- Model of Python `str.rstrip(';')`. -/
def rstripSemicolon (s : List Char) : List Char :=
  (s.reverse.dropWhile (fun c => c == ';')).reverse

/-- `startsWithChars s p` models Python `s.startswith(p)`. -/
def startsWithChars : List Char → List Char → Bool
  | _, [] => true
  | [], _ :: _ => false
  | c :: cs, d :: ds => c == d && startsWithChars cs ds

/-- `containsSub s p` models Python `p in s` (substring containment),
used by `query` to decide which known tables a query references. -/
def containsSub (s p : List Char) : Bool :=
  (List.range (s.length + 1)).any (fun i => startsWithChars (s.drop i) p)

/-- `matchesWordAt s kw i` holds when the uppercase keyword `kw` occurs
in `s` at position `i` case-insensitively with a regex word boundary
(`\b`) on both sides, as in `re.compile(r'\b' + kw + r'\b', re.IGNORECASE)`. -/
def matchesWordAt (s kw : List Char) (i : Nat) : Bool :=
  (((s.drop i).take kw.length).map Char.toUpper == kw)
    && (i == 0 || !isWordChar (s.getD (i - 1) ' '))
    && (decide (s.length ≤ i + kw.length) || !isWordChar (s.getD (i + kw.length) ' '))

/-- `containsKeywordWord s kw` models `pattern.search(s) is not None` for
the word-boundary keyword pattern. -/
def containsKeywordWord (s kw : List Char) : Bool :=
  (List.range s.length).any (matchesWordAt s kw)

/-- The deny list `DANGEROUS_KEYWORDS` of the source, in source order. -/
def dangerousKeywords : List (List Char) :=
  ["DROP".toList, "DELETE".toList, "TRUNCATE".toList, "ALTER".toList,
   "CREATE".toList, "INSERT".toList, "UPDATE".toList, "GRANT".toList,
   "REVOKE".toList, "ATTACH".toList, "DETACH".toList, "PRAGMA".toList,
   "COPY".toList, "EXPORT".toList, "IMPORT".toList]

/-- Model of `_sanitize_identifier`: replace every character outside
`[a-zA-Z0-9_]` with an underscore, then prefix an underscore if the
result starts with a digit. -/
def sanitizeIdentifier (value : List Char) : List Char :=
  let sanitized := value.map (fun c => if isWordChar c then c else '_')
  match sanitized with
  | [] => []
  | c :: cs => if c.isDigit then '_' :: c :: cs else c :: cs

/-- The literal characters of the mandatory `ace_` table-name lead-in. -/
def aceTag : List Char := ['a', 'c', 'e', '_']

/-- Model of `TABLE_NAME_PATTERN.match(name)` for the anchored regex
`^ace_[a-zA-Z0-9_]+$`. -/
def tableNameMatches (name : List Char) : Bool :=
  startsWithChars name aceTag && !(name.drop 4).isEmpty && (name.drop 4).all isWordChar

/-- The error taxonomy of the subsystem (`ValueError` subcases named as
in the specification, plus the engine-originated `QueryError`). -/
inductive DBError where
  | invalidIdentifier
  | forbiddenOperation
  | queryError (msg : List Char)
  deriving DecidableEq, Repr

deriving instance DecidableEq for Except

/-- Model of `_validate_table_name`: raises `InvalidIdentifier` exactly
when the name fails the allow-listed pattern. -/
def validateTableName (name : List Char) : Except DBError Unit :=
  if tableNameMatches name then Except.ok () else Except.error DBError.invalidIdentifier

/-- The retrieval keyword a permitted query may start with. -/
def selectKw : List Char := "SELECT".toList

/-- The common-table-expression introducer a permitted query may start
with. -/
def withKw : List Char := "WITH".toList

/-- Model of `_validate_sql_query`: the query must start (after
uppercasing and stripping) with `SELECT` or `WITH`, and no deny-listed
keyword may occur as a standalone word anywhere in the original text. -/
def validateSqlQuery (sql : List Char) : Except DBError Unit :=
  if !(startsWithChars (pyStrip (asciiUpper sql)) selectKw
      || startsWithChars (pyStrip (asciiUpper sql)) withKw) then
    Except.error DBError.forbiddenOperation
  else if dangerousKeywords.any (fun kw => containsKeywordWord sql kw) then
    Except.error DBError.forbiddenOperation
  else
    Except.ok ()

/-- Model of the composition `f"ace_{safe_chat_id}_{safe_msg_id}"`
performed by `store_dataframe` on the sanitized identifiers. -/
def composeTableName (chatId msgId : List Char) : List Char :=
  aceTag ++ sanitizeIdentifier chatId ++ '_' :: sanitizeIdentifier msgId

/-- A cell value of a stored row. -/
inductive Value where
  | intV (n : Int)
  | strV (s : List Char)
  deriving DecidableEq, Repr

/-- A row of a stored table. -/
abbrev Row := List Value

/-- A physical table in the embedded engine's catalog: its ordered
`(column_name, data_type)` schema (as reported by
`information_schema.columns`), its rows, and the engine's
`estimated_size` figure as reported by `duckdb_tables()`
(`0` models an unavailable/empty estimate, which is falsy in Python). -/
structure PhysTable where
  schema : List (List Char × List Char)
  rows : List Row
  estimatedSize : Nat
  deriving DecidableEq, Repr

/-- One metadata record.  The durable `_cache_metadata` row carries all
of these fields; the in-memory `self.datasets` dictionary carries the
same fields except `size_bytes` (the model carries `size_bytes` on the
in-memory copy as well, and no operation ever reads it from there). -/
structure MetaRow where
  chat_id : List Char
  message_group_id : List Char
  question : List Char
  sql_query : List Char
  created_at : Int
  last_accessed_at : Int
  access_count : Nat
  row_count : Nat
  column_count : Nat
  columns : List (List Char)
  dtypes : List (List Char × List Char)
  size_bytes : Nat
  deriving DecidableEq, Repr

/-- An association list keyed by table name. -/
abbrev NameMap (α : Type) := List (List Char × α)

/-- First value bound to key `k`, if any
(dictionary lookup / `SELECT ... WHERE table_name = ?`). -/
def alistFind {α : Type} (l : NameMap α) (k : List Char) : Option α :=
  match l with
  | [] => none
  | p :: ps => if p.1 == k then some p.2 else alistFind ps k

/-- Key membership (`k in dict`, `COUNT(*) > 0`). -/
def alistHas {α : Type} (l : NameMap α) (k : List Char) : Bool :=
  l.any (fun p => p.1 == k)

/-- Remove every entry with key `k`
(`del dict[k]` / `DELETE ... WHERE table_name = ?`). -/
def alistErase {α : Type} (l : NameMap α) (k : List Char) : NameMap α :=
  l.filter (fun p => !(p.1 == k))

/-- Dictionary-style insertion with Python semantics: an overwrite
keeps the entry in place, a fresh key is appended at the end
(also models SQL `INSERT OR REPLACE` keyed by the primary key). -/
def alistSet {α : Type} (l : NameMap α) (k : List Char) (v : α) : NameMap α :=
  if alistHas l k then l.map (fun p => if p.1 == k then (p.1, v) else p)
  else l ++ [(k, v)]

/-- Keys in order (`dict.keys()`). -/
def alistKeys {α : Type} (l : NameMap α) : List (List Char) :=
  l.map (fun p => p.1)

/-- The manager's state: the engine's physical-table catalog, the
durable `_cache_metadata` table, and the in-memory `self.datasets`
cache of the metadata. -/
structure DBState where
  tables : NameMap PhysTable
  metadata : NameMap MetaRow
  datasets : NameMap MetaRow
  deriving DecidableEq, Repr

/-- Model of `_get_table_size`: validate the name (an invalid name
raises inside the `try`, is caught, and yields `0`); then use the
engine's `estimated_size` when truthy, fall back to
`row_count * column_count * 50`, and yield `0` when the table is
absent (the fallback `SELECT COUNT(*) ... FROM <missing>` raises and
is caught). -/
def getTableSize (st : DBState) (name : List Char) : Nat :=
  match validateTableName name with
  | Except.error _ => 0
  | Except.ok _ =>
    match alistFind st.tables name with
    | none => 0
    | some t =>
      if t.estimatedSize ≠ 0 then t.estimatedSize
      else t.rows.length * t.schema.length * 50

/-- Model of `_get_total_cache_size`: `SUM(size_bytes)` over the
durable metadata table. -/
def getTotalCacheSize (st : DBState) : Nat :=
  (st.metadata.map (fun p => p.2.size_bytes)).sum

/-- The access-statistics bump a successful tracking applies to a
metadata record (`last_accessed_at = CURRENT_TIMESTAMP`,
`access_count = access_count + 1`). -/
def bumpMeta (nowT : Int) (m : MetaRow) : MetaRow :=
  { m with last_accessed_at := nowT, access_count := m.access_count + 1 }

/-- Model of `_track_access`: update the durable row(s) with the given
name, and the in-memory entry when present. -/
def trackAccess (nowT : Int) (st : DBState) (name : List Char) : DBState :=
  { st with
    metadata := st.metadata.map (fun p => if p.1 == name then (p.1, bumpMeta nowT p.2) else p),
    datasets :=
      if alistHas st.datasets name then
        st.datasets.map (fun p => if p.1 == name then (p.1, bumpMeta nowT p.2) else p)
      else st.datasets }

/-- Model of `_drop_table`.  Everything, the name validation included,
runs inside a `try` whose handler logs and returns `0`; hence an
invalid name leaves the state unchanged and yields `0` rather than
propagating `InvalidIdentifier`.  On a valid name the physical table
(`DROP TABLE IF EXISTS`), the durable row and the in-memory entry are
removed and the pre-drop size estimate is returned. -/
def dropTable (st : DBState) (name : List Char) : DBState × Nat :=
  match validateTableName name with
  | Except.error _ => (st, 0)
  | Except.ok _ =>
    let size := getTableSize st name
    ({ st with
        tables := alistErase st.tables name,
        metadata := alistErase st.metadata name,
        datasets := alistErase st.datasets name }, size)

/-- One step of `_load_metadata`'s loop over the pre-fetched metadata
rows: a row whose physical table exists in the catalog is loaded into
the in-memory dictionary; an orphaned row is deleted from the durable
table (neither branch can raise). -/
def loadMetadataStep (acc : DBState) (p : List Char × MetaRow) : DBState :=
  if alistHas acc.tables p.1 then
    { acc with datasets := alistSet acc.datasets p.1 p.2 }
  else
    { acc with metadata := alistErase acc.metadata p.1 }

/-- Model of `_load_metadata`: iterate over a snapshot of the durable
metadata rows, reconciling orphans. -/
def loadMetadata (st : DBState) : DBState :=
  st.metadata.foldl loadMetadataStep st

/-- The text of the wrapper statement `query` sends to the engine:
`SELECT * FROM (<original_sql>) AS subquery LIMIT <limit>`. -/
def enforcedSql (originalSql : List Char) (limit : Nat) : List Char :=
  "SELECT * FROM (".toList ++ originalSql ++ ") AS subquery LIMIT ".toList
    ++ (Nat.repr limit).toList

/-- Engine semantics of the wrapper built by `enforcedSql`, given the
oracle `engine` for the inner statement: the outer
`LIMIT n` keeps the first `n` rows of the inner result. -/
def execWrapped (engine : List Char → Except (List Char) (List Row))
    (originalSql : List Char) (limit : Nat) : Except (List Char) (List Row) :=
  match engine originalSql with
  | Except.error e => Except.error e
  | Except.ok rows => Except.ok (rows.take limit)

/-- Model of `query`: validate the statement, bump access statistics of
every known table whose name occurs as a substring of the statement
text, then execute the wrapped statement.  Note the tracking happens
before execution, so it also happens when the engine then rejects the
statement (the `QueryError` case). -/
def query (engine : List Char → Except (List Char) (List Row)) (nowT : Int)
    (st : DBState) (sql : List Char) (limit : Nat) :
    DBState × Except DBError (List Row) :=
  match validateSqlQuery sql with
  | Except.error e => (st, Except.error e)
  | Except.ok _ =>
    let st1 := (alistKeys st.datasets).foldl
      (fun acc name => if containsSub sql name then trackAccess nowT acc name else acc) st
    let originalSql := rstripSemicolon (pyStrip sql)
    match execWrapped engine originalSql limit with
    | Except.error msg => (st1, Except.error (DBError.queryError msg))
    | Except.ok rows => (st1, Except.ok rows)

/-- A tabular input to `store_dataframe`: the ordered
`(column_name, dtype)` pairs and the rows of the DataFrame. -/
structure DataFrame where
  cols : List (List Char × List Char)
  rows : List Row
  deriving DecidableEq, Repr

/-- Model of `store_dataframe`: sanitize both identifiers, compose and
validate the table name (a validation failure propagates), create or
replace the physical table, estimate its size, and record the metadata
both in memory and durably.  `engineSize` is the engine's
`estimated_size` for the created table. -/
def storeDataframe (nowT : Int) (engineSize : Nat) (st : DBState)
    (chatId msgId question sqlQuery : List Char) (df : DataFrame) :
    Except DBError (DBState × List Char) :=
  let tableName := composeTableName chatId msgId
  match validateTableName tableName with
  | Except.error e => Except.error e
  | Except.ok _ =>
    let newTable : PhysTable :=
      { schema := df.cols, rows := df.rows, estimatedSize := engineSize }
    let st1 := { st with tables := alistSet st.tables tableName newTable }
    let sizeBytes := getTableSize st1 tableName
    let meta : MetaRow :=
      { chat_id := chatId, message_group_id := msgId, question := question,
        sql_query := sqlQuery, created_at := nowT, last_accessed_at := nowT,
        access_count := 0, row_count := df.rows.length,
        column_count := df.cols.length, columns := df.cols.map (fun p => p.1),
        dtypes := df.cols, size_bytes := sizeBytes }
    Except.ok ({ st1 with
        datasets := alistSet st1.datasets tableName meta,
        metadata := alistSet st1.metadata tableName meta }, tableName)

/-- The frequently-used exemption of `cleanup_cache`: a table is kept
regardless of age when `keep_frequently_used` is set and its access
count reaches `min_access_count`. -/
def exemptB (keep : Bool) (minAcc : Nat) (m : MetaRow) : Bool :=
  keep && decide (minAcc ≤ m.access_count)

/-- The `tables_to_remove` list built by phase 1 (age eviction) of
`cleanup_cache`: every non-exempt table whose `last_accessed_at` lies
strictly before `now - timedelta(days=max_age_days)`, in dictionary
order.  Time is measured in days. -/
def ageTablesToRemove (nowT maxAgeDays : Int) (keep : Bool) (minAcc : Nat)
    (ds : NameMap MetaRow) : List (List Char) :=
  (ds.filter (fun p =>
    !exemptB keep minAcc p.2 && decide (p.2.last_accessed_at < nowT - maxAgeDays))).map
    (fun p => p.1)

/-- Drop a list of tables in order, accumulating the removed count and
the freed bytes (the shape of both removal loops in `cleanup_cache`
and of the original-table drop loop in `consolidate_datasets`). -/
def dropMany (st : DBState) : List (List Char) → DBState × Nat × Nat
  | [] => (st, 0, 0)
  | k :: ks =>
    let r := dropTable st k
    let rest := dropMany r.1 ks
    (rest.1, rest.2.1 + 1, r.2 + rest.2.2)

/-- Insert an entry into a time-ascending list, after every entry with
an earlier-or-equal timestamp (the stable position Python's `sort`
gives a later-arriving element). -/
def insertByTime (p : List Char × Int) : List (List Char × Int) → List (List Char × Int)
  | [] => [p]
  | q :: qs => if q.2 ≤ p.2 then q :: insertByTime p qs else p :: q :: qs

/-- Stable ascending sort by timestamp, modelling
`lru_candidates.sort(key=lambda x: x[1])`. -/
def sortByTime (l : List (List Char × Int)) : List (List Char × Int) :=
  l.foldl (fun acc p => insertByTime p acc) []

/-- The LRU loop of phase 2 of `cleanup_cache`: before each candidate,
stop once the recomputed total size (in MB) no longer exceeds the cap;
otherwise drop the candidate and continue. -/
def lruLoop (maxSizeMb : Nat) : List (List Char) → DBState → DBState × Nat × Nat
  | [], st => (st, 0, 0)
  | k :: ks, st =>
    if getTotalCacheSize st / 1024 / 1024 ≤ maxSizeMb then (st, 0, 0)
    else
      let r := dropTable st k
      let rest := lruLoop maxSizeMb ks r.1
      (rest.1, rest.2.1 + 1, r.2 + rest.2.2)

/-- The statistics dictionary returned by `cleanup_cache`. -/
structure CleanupStats where
  removed_count : Nat
  removed_size_mb : Nat
  remaining_datasets : Nat
  cache_size_mb : Nat
  deriving DecidableEq, Repr

/-- Model of `cleanup_cache`: phase 1 drops the age-evicted tables,
phase 2 applies LRU eviction while the cache exceeds the size cap,
skipping exempt tables in both phases (the final `VACUUM` is a
best-effort storage command with no effect on the modelled state). -/
def cleanupCache (nowT maxAgeDays : Int) (maxSizeMb : Nat) (keep : Bool)
    (minAcc : Nat) (st : DBState) : DBState × CleanupStats :=
  let toRemove := ageTablesToRemove nowT maxAgeDays keep minAcc st.datasets
  let r1 := dropMany st toRemove
  let st1 := r1.1
  let totalMb := getTotalCacheSize st1 / 1024 / 1024
  let r2 :=
    if maxSizeMb < totalMb then
      let cands := (st1.datasets.filter (fun p => !exemptB keep minAcc p.2)).map
        (fun p => (p.1, p.2.last_accessed_at))
      lruLoop maxSizeMb ((sortByTime cands).map (fun p => p.1)) st1
    else (st1, 0, 0)
  (r2.1,
   { removed_count := r1.2.1 + r2.2.1,
     removed_size_mb := (r1.2.2 + r2.2.2) / 1024 / 1024,
     remaining_datasets := r2.1.datasets.length,
     cache_size_mb := getTotalCacheSize r2.1 / 1024 / 1024 })

/-- The ordered `(column_name, data_type)` schema reported by
`information_schema.columns` for a table name: the empty list for an
absent table (the query returns no rows rather than raising). -/
def schemaOf (st : DBState) (name : List Char) : List (List Char × List Char) :=
  match alistFind st.tables name with
  | some t => t.schema
  | none => []

/-- The concatenated rows of a `UNION ALL` chain over the named tables,
in order. -/
def rowsOfTables (st : DBState) (names : List (List Char)) : List Row :=
  names.foldr
    (fun n acc => (match alistFind st.tables n with
      | some t => t.rows
      | none => []) ++ acc) []

/-- Append a table name to its chat's group, creating the group at the
end on first sight (Python dict insertion order). -/
def addToGroups (gs : NameMap (List (List Char))) (tid name : List Char) :
    NameMap (List (List Char)) :=
  if alistHas gs tid then
    gs.map (fun p => if p.1 == tid then (p.1, p.2 ++ [name]) else p)
  else gs ++ [(tid, [name])]

/-- The `table_groups` dictionary of `consolidate_datasets`: cached
tables grouped by their metadata `chat_id`, the group list in
dictionary order.  A non-empty `chatFilter` restricts to that chat
(`if chat_id and tid != chat_id: continue` — an empty filter string is
falsy in Python and applies no filter). -/
def buildGroups (chatFilter : Option (List Char)) (ds : NameMap MetaRow) :
    NameMap (List (List Char)) :=
  ds.foldl (fun gs p =>
    let tid := p.2.chat_id
    let skip := match chatFilter with
      | some c => !c.isEmpty && !(tid == c)
      | none => false
    if skip then gs else addToGroups gs tid p.1) []

/-- The provenance text `f"Consolidated from {n} tables"`. -/
def consolidatedQuestion (n : Nat) : List Char :=
  "Consolidated from ".toList ++ (Nat.repr n).toList ++ " tables".toList

/-- Consolidation of one group `(tid, tables)` of `consolidate_datasets`
over the running `(state, consolidated_count, space_saved_bytes)`
accumulator.  Skips (with no state change) a single-table group, an
incompatible-schema group, a group whose generated name fails
validation, and a group whose `CREATE TABLE ... AS SELECT` would raise
(name collision with an existing table, or a missing member table).
Otherwise creates the deduplicated-union table, records its metadata
in memory and durably, and drops the member tables. -/
def processGroup (nowT : Int) (ts : List Char) (maxTables : Nat)
    (acc : DBState × Nat × Nat) (g : List Char × List (List Char)) :
    DBState × Nat × Nat :=
  match acc with
  | (st, cnt, saved) =>
    let tid := g.1
    if g.2.length ≤ 1 then acc
    else
      let toCons := g.2.take maxTables
      let schemas := toCons.map (fun n => (n, schemaOf st n))
      if schemas.length < 2 then acc
      else
        let firstSchema := (schemas.headD ([], [])).2
        let compatible := schemas.all (fun p => p.2 == firstSchema)
        if !compatible then acc
        else
          let cname := aceTag ++ sanitizeIdentifier tid ++ "_consolidated_".toList ++ ts
          match validateTableName cname with
          | Except.error _ => acc
          | Except.ok _ =>
            if alistHas st.tables cname || !(toCons.all (fun n => alistHas st.tables n)) then acc
            else
              let newRows := (rowsOfTables st toCons).dedup
              let newTable : PhysTable :=
                { schema := firstSchema, rows := newRows, estimatedSize := 0 }
              let st1 := { st with tables := st.tables ++ [(cname, newTable)] }
              let meta : MetaRow :=
                { chat_id := tid, message_group_id := "consolidated".toList,
                  question := consolidatedQuestion schemas.length, sql_query := [],
                  created_at := nowT, last_accessed_at := nowT, access_count := 0,
                  row_count := newRows.length, column_count := firstSchema.length,
                  columns := firstSchema.map (fun p => p.1), dtypes := [],
                  size_bytes := getTableSize st1 cname }
              let st2 := { st1 with datasets := alistSet st1.datasets cname meta }
              if alistHas st2.metadata cname then (st2, cnt, saved)
              else
                let st3 := { st2 with metadata := st2.metadata ++ [(cname, meta)] }
                let dropped := dropMany st3 (schemas.map (fun p => p.1))
                (dropped.1, cnt + 1, saved + dropped.2.2)

/-- Model of `consolidate_datasets`: group the cached tables by chat,
consolidate each viable group, and return the state together with
`consolidated_count` and `space_saved_mb`.  `ts` is the
`%Y%m%d_%H%M%S` timestamp string embedded in the generated name. -/
def consolidateDatasets (nowT : Int) (ts : List Char)
    (chatFilter : Option (List Char)) (maxTables : Nat) (st : DBState) :
    DBState × Nat × Nat :=
  let groups := buildGroups chatFilter st.datasets
  let r := groups.foldl (processGroup nowT ts maxTables) (st, 0, 0)
  (r.1, r.2.1, r.2.2 / 1024 / 1024)

/-- A metadata record with the given chat id, access count and
last-accessed instant, the remaining fields neutral; used by the
concrete scenarios below. -/
def sampleMeta (chat : List Char) (acc : Nat) (last : Int) : MetaRow :=
  { chat_id := chat, message_group_id := [], question := [], sql_query := [],
    created_at := 0, last_accessed_at := last, access_count := acc,
    row_count := 0, column_count := 0, columns := [], dtypes := [],
    size_bytes := 0 }

/-- An engine oracle producing a fixed three-row result set. -/
def c1Engine : List Char → Except (List Char) (List Row) :=
  fun _ => Except.ok [[Value.intV 1], [Value.intV 2], [Value.intV 3]]

/-- An empty cache state. -/
def c1St : DBState := { tables := [], metadata := [], datasets := [] }

/-- A cached table name referenced by the failing query below. -/
def c3Name : List Char := "ace_t".toList

/-- Its metadata record before the failing query (access count `0`). -/
def c3Meta : MetaRow := sampleMeta ("chat1".toList) 0 0

/-- A state holding one tracked dataset. -/
def c3St : DBState :=
  { tables := [], metadata := [(c3Name, c3Meta)], datasets := [(c3Name, c3Meta)] }

/-- An engine oracle rejecting every statement. -/
def c3Engine : List Char → Except (List Char) (List Row) :=
  fun _ => Except.error ("Catalog Error".toList)

/-- A guard-permitted query referencing the tracked table. -/
def c3Sql : List Char := "SELECT * FROM ace_t".toList

/-- An empty state for the invalid-drop scenario. -/
def c4St : DBState := { tables := [], metadata := [], datasets := [] }

/-- A table name failing the `ace_` pattern. -/
def c4Bad : List Char := "bad".toList

/-- A physical table backing the live metadata row below. -/
def c5Table : PhysTable := { schema := [], rows := [], estimatedSize := 10 }

/-- A metadata row with a backing physical table. -/
def c5Name : List Char := "ace_alive".toList

/-- A metadata row without a backing physical table. -/
def c5Orphan : List Char := "ace_orphan".toList

/-- A freshly opened state (empty in-memory cache) holding one live and
one orphaned metadata row. -/
def c5St : DBState :=
  { tables := [(c5Name, c5Table)],
    metadata := [(c5Name, sampleMeta [] 0 0), (c5Orphan, sampleMeta [] 0 0)],
    datasets := [] }

/-- Table `A` of the eviction scenario. -/
def c6A : List Char := "ace_a".toList

/-- Table `B` of the eviction scenario. -/
def c6B : List Char := "ace_b".toList

/-- `A`: last accessed 20 days ago, access count 1. -/
def c6MA : MetaRow := sampleMeta [] 1 (-20)

/-- `B`: last accessed 20 days ago, access count 10. -/
def c6MB : MetaRow := sampleMeta [] 10 (-20)

/-- The dataset dictionary of the eviction scenario. -/
def c6Ds : NameMap MetaRow := [(c6A, c6MA), (c6B, c6MB)]

/-- The common schema of the consolidation scenario. -/
def c7Schema : List (List Char × List Char) :=
  [("id".toList, "INTEGER".toList), ("val".toList, "VARCHAR".toList)]

/-- First member table name of the consolidation scenario. -/
def c7N1 : List Char := "ace_s1_m1".toList

/-- Second member table name. -/
def c7N2 : List Char := "ace_s1_m2".toList

/-- Third member table name. -/
def c7N3 : List Char := "ace_s1_m3".toList

/-- A member physical table with the common schema and given rows. -/
def c7T (r : List Row) : PhysTable :=
  { schema := c7Schema, rows := r, estimatedSize := 1000 }

/-- The member tables' metadata record (session `s1`). -/
def c7M : MetaRow :=
  { sampleMeta ("s1".toList) 0 0 with row_count := 3, column_count := 2, size_bytes := 1000 }

/-- The consolidation scenario state: three session-`s1` tables with the
common schema and the given row lists. -/
def c7State (r1 r2 r3 : List Row) : DBState :=
  { tables := [(c7N1, c7T r1), (c7N2, c7T r2), (c7N3, c7T r3)],
    metadata := [(c7N1, c7M), (c7N2, c7M), (c7N3, c7M)],
    datasets := [(c7N1, c7M), (c7N2, c7M), (c7N3, c7M)] }

/-- The timestamp fragment of the generated consolidated name. -/
def c7Ts : List Char := "20250101_120000".toList

/-- The generated consolidated table name. -/
def c7ConsName : List Char :=
  aceTag ++ sanitizeIdentifier ("s1".toList) ++ "_consolidated_".toList ++ c7Ts

/-- The consolidated physical table: deduplicated union of the members. -/
def c7ConsTable (r1 r2 r3 : List Row) : PhysTable :=
  { schema := c7Schema, rows := (r1 ++ r2 ++ r3).dedup, estimatedSize := 0 }

/-- The consolidated table's metadata record. -/
def c7ConsMeta (r1 r2 r3 : List Row) : MetaRow :=
  { chat_id := "s1".toList, message_group_id := "consolidated".toList,
    question := consolidatedQuestion 3, sql_query := [],
    created_at := 5, last_accessed_at := 5, access_count := 0,
    row_count := (r1 ++ r2 ++ r3).dedup.length, column_count := 2,
    columns := ["id".toList, "val".toList], dtypes := [],
    size_bytes := (r1 ++ r2 ++ r3).dedup.length * 2 * 50 }

/-- Concrete rows for the first member table. -/
def c7R1 : List Row :=
  [[Value.intV 1, Value.strV ("a".toList)], [Value.intV 2, Value.strV ("b".toList)],
   [Value.intV 3, Value.strV ("c".toList)]]

/-- Concrete rows for the second member table, disjoint from the first. -/
def c7R2 : List Row :=
  [[Value.intV 4, Value.strV ("d".toList)], [Value.intV 5, Value.strV ("e".toList)],
   [Value.intV 6, Value.strV ("f".toList)]]

/-- Concrete rows for the third member table, disjoint from the others. -/
def c7R3 : List Row :=
  [[Value.intV 7, Value.strV ("g".toList)], [Value.intV 8, Value.strV ("h".toList)],
   [Value.intV 9, Value.strV ("i".toList)]]

/-- The valid table name of the double-drop scenario. -/
def c8Name : List Char := "ace_t8".toList

/-- A state caching one table under that name. -/
def c8St : DBState :=
  { tables := [(c8Name, { schema := [], rows := [], estimatedSize := 7 })],
    metadata := [(c8Name, sampleMeta [] 0 0)],
    datasets := [(c8Name, sampleMeta [] 0 0)] }

lemma map_sanitize_all_word (s : List Char) :
    (s.map (fun c => if isWordChar c then c else '_')).all isWordChar = true := by
  rw [List.all_map]
  apply List.all_eq_true.mpr
  intro c _
  by_cases hc : isWordChar c
  · simp [hc]
  · simp only [Function.comp_apply, if_neg hc]
    decide

lemma sanitizeIdentifier_all_word (s : List Char) :
    (sanitizeIdentifier s).all isWordChar = true := by
  have h := map_sanitize_all_word s
  unfold sanitizeIdentifier
  cases hm : s.map (fun c => if isWordChar c then c else '_') with
  | nil => simp
  | cons c cs =>
    rw [hm] at h
    rw [List.all_cons, Bool.and_eq_true] at h
    by_cases hd : c.isDigit
    · simp [hd, h.1, h.2]
      decide
    · simp [hd, h.1, h.2]

lemma sanitizeIdentifier_head_not_digit (s : List Char) :
    (sanitizeIdentifier s).head?.all (fun c => !c.isDigit) = true := by
  unfold sanitizeIdentifier
  cases hm : s.map (fun c => if isWordChar c then c else '_') with
  | nil => simp
  | cons c cs =>
    by_cases hd : c.isDigit
    · simp [hd]
    · simp [hd]

/-- Claim C9: the identifier sanitizer is a total function over all
strings (it is a plain Lean function, defined for every input,
including the empty string), and for every string its result consists
only of characters from `[A-Za-z0-9_]` and does not start with a
digit. -/
theorem sanitize_total_and_wellformed (s : List Char) :
    ((sanitizeIdentifier s).all isWordChar
      && (sanitizeIdentifier s).head?.all (fun c => !c.isDigit)) = true := by
  rw [sanitizeIdentifier_all_word, sanitizeIdentifier_head_not_digit]
  rfl

/-- Claim C10: for every pair of caller-supplied identifiers, the table
name `store_dataframe` composes — the `ace` lead-in, the sanitized chat
id and the sanitized message-group id joined by underscores — matches
the allow-listed pattern `^ace_[a-zA-Z0-9_]+$`, so the
`InvalidIdentifier` branch inside the store operation is unreachable:
`store_dataframe` never raises it. -/
theorem composed_table_name_always_valid (chatId msgId : List Char) :
    tableNameMatches (composeTableName chatId msgId) = true := by
  unfold composeTableName tableNameMatches aceTag
  have h1 := sanitizeIdentifier_all_word chatId
  have h2 := sanitizeIdentifier_all_word msgId
  simp [startsWithChars, List.all_append, h1, h2, isWordChar]

lemma alistFind_erase_self {α : Type} (l : NameMap α) (k : List Char) :
    alistFind (alistErase l k) k = none := by
  induction l with
  | nil => rfl
  | cons p ps ih =>
    by_cases h : p.1 == k
    · simpa [alistErase, List.filter_cons, h] using ih
    · simpa [alistErase, alistFind, List.filter_cons, h] using ih

lemma alistErase_idem {α : Type} (l : NameMap α) (k : List Char) :
    alistErase (alistErase l k) k = alistErase l k := by
  simp [alistErase, List.filter_filter]

/-- Claim C4 counterexample: `drop` on a name that fails the pattern
does not surface `InvalidIdentifier` — the validation failure is
raised inside `_drop_table`'s catch-all handler, so the call returns
`0` with the state untouched. -/
theorem drop_invalid_returns_zero_cex :
    validateTableName c4Bad = Except.error DBError.invalidIdentifier
      ∧ dropTable c4St c4Bad = (c4St, 0) := by
  constructor
  · decide
  · rfl

/-- Claim C4 (amended): an invalid table name makes `_drop_table` and
`_get_table_size` return `0` without raising — their internal
validation failure is caught by their own exception handlers rather
than surfaced — while the state is left unchanged. -/
theorem drop_and_size_swallow_invalid (st : DBState) (name : List Char)
    (h : validateTableName name = Except.error DBError.invalidIdentifier) :
    dropTable st name = (st, 0) ∧ getTableSize st name = 0 := by
  unfold dropTable getTableSize
  rw [h]
  exact ⟨rfl, rfl⟩

/-- Witness for the amended claim C4 at the concrete invalid name. -/
theorem drop_and_size_swallow_invalid_witness :
    dropTable c4St c4Bad = (c4St, 0) ∧ getTableSize c4St c4Bad = 0 :=
  drop_and_size_swallow_invalid c4St c4Bad (by decide)

/-- Claim C8: dropping a valid table name twice in a row cannot fail
(the model's `dropTable` is a total function, exactly as `_drop_table`
catches every exception), and the second call frees `0` bytes and
leaves the state of the first call unchanged: the table, its ledger
row and its in-memory entry are already gone, and the size lookup of
an absent table yields `0`. -/
theorem drop_twice_idempotent (st : DBState) (name : List Char)
    (h : tableNameMatches name = true) :
    dropTable (dropTable st name).1 name = ((dropTable st name).1, 0) := by
  have hv : validateTableName name = Except.ok () := by
    unfold validateTableName
    rw [if_pos h]
  have h1 : (dropTable st name).1 =
      { tables := alistErase st.tables name, metadata := alistErase st.metadata name,
        datasets := alistErase st.datasets name } := by
    unfold dropTable
    rw [hv]
  rw [h1]
  unfold dropTable
  rw [hv]
  have hsize : getTableSize
      { tables := alistErase st.tables name, metadata := alistErase st.metadata name,
        datasets := alistErase st.datasets name } name = 0 := by
    unfold getTableSize
    rw [hv]
    simp [alistFind_erase_self]
  rw [hsize]
  simp [alistErase_idem]

/-- Witness for claim C8 at a concrete one-table state. -/
theorem drop_twice_idempotent_witness :
    dropTable (dropTable c8St c8Name).1 c8Name = ((dropTable c8St c8Name).1, 0) :=
  drop_twice_idempotent c8St c8Name (by decide)

/-- Claim C1: for every guard-permitted query whose inner result set
has `N` rows, `query(sql, L)` returns exactly `min L N` rows, because
the statement is executed wrapped as
`SELECT * FROM (<trimmed sql>) AS subquery LIMIT L`: a larger
user-supplied `LIMIT` inside `sql` cannot bypass the cap, and a
smaller one is respected (both are already reflected in the inner
result's row count `N`). -/
theorem query_enforces_row_cap (engine : List Char → Except (List Char) (List Row))
    (nowT : Int) (st : DBState) (sql : List Char) (l : Nat) (rows : List Row)
    (hguard : validateSqlQuery sql = Except.ok ())
    (hengine : engine (rstripSemicolon (pyStrip sql)) = Except.ok rows) :
    (query engine nowT st sql l).2 = Except.ok (rows.take l)
      ∧ (rows.take l).length = min l rows.length := by
  constructor
  · simp [query, hguard, execWrapped, hengine]
  · simp

/-- Witness for claim C1: a three-row inner result capped at two rows. -/
theorem query_enforces_row_cap_witness :
    (query c1Engine 0 c1St ("SELECT 1".toList) 2).2
        = Except.ok (([[Value.intV 1], [Value.intV 2], [Value.intV 3]] : List Row).take 2)
      ∧ (([[Value.intV 1], [Value.intV 2], [Value.intV 3]] : List Row).take 2).length
        = min 2 ([[Value.intV 1], [Value.intV 2], [Value.intV 3]] : List Row).length :=
  query_enforces_row_cap c1Engine 0 c1St ("SELECT 1".toList) 2
    [[Value.intV 1], [Value.intV 2], [Value.intV 3]] (by decide) (by decide)

lemma validateSqlQuery_cases (sql : List Char) :
    validateSqlQuery sql = Except.ok ()
      ∨ validateSqlQuery sql = Except.error DBError.forbiddenOperation := by
  unfold validateSqlQuery
  cases hstart : (startsWithChars (pyStrip (asciiUpper sql)) selectKw
      || startsWithChars (pyStrip (asciiUpper sql)) withKw) with
  | false =>
    right
    simp [hstart]
  | true =>
    cases hkw : (dangerousKeywords.any fun kw => containsKeywordWord sql kw) with
    | false =>
      left
      simp [hstart, hkw]
    | true =>
      right
      simp [hstart, hkw]

lemma dangerousKeywords_ne_nil : ∀ kw ∈ dangerousKeywords, kw ≠ [] := by decide

lemma matchesWordAt_lt_length (s kw : List Char) (i : Nat) (hkw : kw ≠ [])
    (h : matchesWordAt s kw i = true) : i < s.length := by
  unfold matchesWordAt at h
  rw [Bool.and_eq_true, Bool.and_eq_true] at h
  have hb : ((s.drop i).take kw.length).map Char.toUpper = kw := by
    have := h.1.1
    rwa [beq_iff_eq] at this
  have hlen : kw.length ≤ s.length - i := by
    have := congrArg List.length hb
    simp at this
    omega
  have hk : 0 < kw.length := List.length_pos.mpr hkw
  omega

lemma containsKeywordWord_iff (s kw : List Char) (hkw : kw ≠ []) :
    containsKeywordWord s kw = true ↔ ∃ i, matchesWordAt s kw i = true := by
  unfold containsKeywordWord
  rw [List.any_eq_true]
  constructor
  · rintro ⟨i, _, hi⟩
    exact ⟨i, hi⟩
  · rintro ⟨i, hi⟩
    exact ⟨i, List.mem_range.mpr (matchesWordAt_lt_length s kw i hkw hi), hi⟩

lemma validateSqlQuery_forbidden_iff (sql : List Char) :
    validateSqlQuery sql = Except.error DBError.forbiddenOperation ↔
      (¬(startsWithChars (pyStrip (asciiUpper sql)) selectKw = true
          ∨ startsWithChars (pyStrip (asciiUpper sql)) withKw = true)
        ∨ ∃ kw ∈ dangerousKeywords, ∃ i, matchesWordAt sql kw i = true) := by
  cases hstart : (startsWithChars (pyStrip (asciiUpper sql)) selectKw
      || startsWithChars (pyStrip (asciiUpper sql)) withKw) with
  | false =>
    rw [Bool.or_eq_false_iff] at hstart
    constructor
    · intro _
      exact Or.inl (by simp [hstart.1, hstart.2])
    · intro _
      unfold validateSqlQuery
      simp [hstart.1, hstart.2]
  | true =>
    have hor : startsWithChars (pyStrip (asciiUpper sql)) selectKw = true
        ∨ startsWithChars (pyStrip (asciiUpper sql)) withKw = true := by
      rwa [Bool.or_eq_true] at hstart
    cases hkw : (dangerousKeywords.any fun kw => containsKeywordWord sql kw) with
    | false =>
      constructor
      · intro hval
        exfalso
        unfold validateSqlQuery at hval
        simp [hkw] at hval
        rcases hor with h | h
        · rw [hval.1] at h
          exact Bool.false_ne_true h
        · rw [hval.2] at h
          exact Bool.false_ne_true h
      · intro hr
        rcases hr with hr | hr
        · exact absurd hor hr
        · exfalso
          obtain ⟨kw, hmem, hi⟩ := hr
          have hc : containsKeywordWord sql kw = true :=
            (containsKeywordWord_iff sql kw (dangerousKeywords_ne_nil kw hmem)).mpr hi
          have hany : (dangerousKeywords.any fun kw => containsKeywordWord sql kw) = true :=
            List.any_eq_true.mpr ⟨kw, hmem, hc⟩
          rw [hkw] at hany
          exact Bool.false_ne_true hany
    | true =>
      have hex : ∃ kw ∈ dangerousKeywords, ∃ i, matchesWordAt sql kw i = true := by
        rw [List.any_eq_true] at hkw
        obtain ⟨kw, hmem, hc⟩ := hkw
        exact ⟨kw, hmem, (containsKeywordWord_iff sql kw
          (dangerousKeywords_ne_nil kw hmem)).mp hc⟩
      constructor
      · intro _
        exact Or.inr hex
      · intro _
        unfold validateSqlQuery
        rw [Bool.or_eq_true] at hstart
        simp [hstart, hkw]

/-- Claim C2: `query(sql, limit)` fails with `ForbiddenOperation` if
and only if the stripped, uppercased text does not start with the
retrieval keyword `SELECT` or the common-table-expression introducer
`WITH`, or some deny-listed keyword occurs somewhere in `sql` as a
standalone word — a case-insensitive match bounded on both sides by a
regex word boundary, so that a deny-listed keyword occurring only as a
substring of a longer identifier does not trigger it, while a
deny-listed word is caught even when the query also starts with
`SELECT`. -/
theorem query_forbidden_iff (engine : List Char → Except (List Char) (List Row))
    (nowT : Int) (st : DBState) (sql : List Char) (l : Nat) :
    (query engine nowT st sql l).2 = Except.error DBError.forbiddenOperation ↔
      (¬(startsWithChars (pyStrip (asciiUpper sql)) selectKw = true
          ∨ startsWithChars (pyStrip (asciiUpper sql)) withKw = true)
        ∨ ∃ kw ∈ dangerousKeywords, ∃ i, matchesWordAt sql kw i = true) := by
  rw [← validateSqlQuery_forbidden_iff]
  rcases validateSqlQuery_cases sql with hv | hv
  · constructor
    · intro hq
      exfalso
      rcases hcw : execWrapped engine (rstripSemicolon (pyStrip sql)) l with msg | rows
      · simp [query, hv, hcw] at hq
      · simp [query, hv, hcw] at hq
    · intro hq
      rw [hv] at hq
      exact absurd hq (by simp)
  · constructor
    · intro _
      exact hv
    · intro _
      simp [query, hv]

/-- Claim C3 counterexample: a guard-permitted query that the engine
rejects still bumps the referenced table's access statistics, because
`query` tracks access before executing: here the call fails with
`QueryError` yet the table's `access_count` goes from `0` to `1`. -/
theorem query_error_still_bumps_cex :
    (query c3Engine 7 c3St c3Sql 10).2
        = Except.error (DBError.queryError ("Catalog Error".toList))
      ∧ (alistFind (query c3Engine 7 c3St c3Sql 10).1.datasets c3Name).map
          MetaRow.access_count = some 1
      ∧ (alistFind c3St.datasets c3Name).map MetaRow.access_count = some 0 := by
  refine ⟨?_, ?_, ?_⟩ <;> decide

lemma alistFind_cons {α : Type} (q : List Char × α) (ps : NameMap α) (n : List Char) :
    alistFind (q :: ps) n = if q.1 == n then some q.2 else alistFind ps n := rfl

lemma alistFind_map_bump_ne {α : Type} (l : NameMap α) (k n : List Char) (f : α → α)
    (hne : k ≠ n) :
    alistFind (l.map fun p => if p.1 == k then (p.1, f p.2) else p) n
      = alistFind l n := by
  induction l with
  | nil => rfl
  | cons p ps ih =>
    rw [List.map_cons]
    by_cases hp : (p.1 == k) = true
    · have hpn : (p.1 == n) = false := by
        rw [eq_of_beq hp]
        exact beq_eq_false_iff_ne.mpr hne
      rw [if_pos hp, alistFind_cons, alistFind_cons, hpn, if_neg Bool.false_ne_true,
        if_neg Bool.false_ne_true, ih]
    · rw [if_neg hp, alistFind_cons, alistFind_cons, ih]

lemma alistFind_map_bump_self {α : Type} (l : NameMap α) (k : List Char) (f : α → α) :
    alistFind (l.map fun p => if p.1 == k then (p.1, f p.2) else p) k
      = (alistFind l k).map f := by
  induction l with
  | nil => rfl
  | cons p ps ih =>
    rw [List.map_cons]
    by_cases hp : (p.1 == k) = true
    · rw [if_pos hp, alistFind_cons, alistFind_cons, if_pos hp, if_pos hp]
      rfl
    · rw [if_neg hp, alistFind_cons, alistFind_cons, ih]
      have hp' : (p.1 == k) = false := by
        rw [Bool.eq_false_iff]
        exact hp
      rw [hp', if_neg Bool.false_ne_true, if_neg Bool.false_ne_true]

lemma alistFind_some_has {α : Type} (l : NameMap α) (k : List Char) (v : α)
    (h : alistFind l k = some v) : alistHas l k = true := by
  induction l with
  | nil => exact Option.noConfusion h
  | cons p ps ih =>
    rw [alistFind_cons] at h
    by_cases hp : (p.1 == k) = true
    · rw [alistHas, List.any_cons, hp, Bool.true_or]
    · rw [if_neg hp] at h
      rw [alistHas, List.any_cons]
      rw [alistHas] at ih
      rw [ih h, Bool.or_true]

lemma mem_keys_of_find {α : Type} (l : NameMap α) (k : List Char) (v : α)
    (h : alistFind l k = some v) : k ∈ alistKeys l := by
  induction l with
  | nil => exact Option.noConfusion h
  | cons p ps ih =>
    rw [alistFind_cons] at h
    by_cases hp : (p.1 == k) = true
    · rw [alistKeys, List.map_cons, eq_of_beq hp]
      exact List.mem_cons_self k _
    · rw [if_neg hp] at h
      rw [alistKeys, List.map_cons]
      have hmem := ih h
      rw [alistKeys] at hmem
      exact List.mem_cons_of_mem p.1 hmem

lemma trackAccess_datasets_ne (nowT : Int) (st : DBState) (k n : List Char)
    (hne : k ≠ n) :
    alistFind (trackAccess nowT st k).datasets n = alistFind st.datasets n := by
  unfold trackAccess
  by_cases h : alistHas st.datasets k = true
  · simp only [h, if_true]
    exact alistFind_map_bump_ne st.datasets k n (bumpMeta nowT) hne
  · simp [h]

lemma trackAccess_datasets_self (nowT : Int) (st : DBState) (k : List Char)
    (m : MetaRow) (h : alistFind st.datasets k = some m) :
    alistFind (trackAccess nowT st k).datasets k = some (bumpMeta nowT m) := by
  unfold trackAccess
  have hh := alistFind_some_has st.datasets k m h
  simp only [hh, if_true]
  rw [alistFind_map_bump_self st.datasets k (bumpMeta nowT), h]
  rfl

lemma fold_track_not_mem (sql : List Char) (nowT : Int) (ks : List (List Char))
    (acc : DBState) (n : List Char) (hn : n ∉ ks) :
    alistFind ((ks.foldl
      (fun a nm => if containsSub sql nm then trackAccess nowT a nm else a) acc).datasets) n
      = alistFind acc.datasets n := by
  induction ks generalizing acc with
  | nil => rfl
  | cons k ks ih =>
    rw [List.mem_cons, not_or] at hn
    rw [List.foldl_cons, ih _ hn.2]
    by_cases hc : containsSub sql k = true
    · simp only [hc, if_true]
      exact trackAccess_datasets_ne nowT acc k n (Ne.symm hn.1)
    · simp [hc]

lemma fold_track_mem (sql : List Char) (nowT : Int) (l1 l2 : List (List Char))
    (acc : DBState) (n : List Char) (m : MetaRow)
    (h1 : n ∉ l1) (h2 : n ∉ l2) (hc : containsSub sql n = true)
    (hfind : alistFind acc.datasets n = some m) :
    alistFind (((l1 ++ n :: l2).foldl
      (fun a nm => if containsSub sql nm then trackAccess nowT a nm else a) acc).datasets) n
      = some (bumpMeta nowT m) := by
  rw [List.foldl_append, List.foldl_cons]
  have hmid : alistFind ((l1.foldl
      (fun a nm => if containsSub sql nm then trackAccess nowT a nm else a) acc).datasets) n
      = some m := by
    rw [fold_track_not_mem sql nowT l1 acc n h1]
    exact hfind
  rw [fold_track_not_mem sql nowT l2 _ n h2]
  simp only [hc, if_true]
  exact trackAccess_datasets_self nowT _ n m hmid

lemma exists_split_of_mem_nodup {a : List Char} {ks : List (List Char)}
    (hmem : a ∈ ks) (hnd : ks.Nodup) :
    ∃ l1 l2, ks = l1 ++ a :: l2 ∧ a ∉ l1 ∧ a ∉ l2 := by
  obtain ⟨l1, l2, rfl⟩ := List.append_of_mem hmem
  rw [List.nodup_append] at hnd
  refine ⟨l1, l2, rfl, ?_, ?_⟩
  · intro h
    exact (hnd.2.2 h) (List.mem_cons_self a l2)
  · exact (List.nodup_cons.mp hnd.2.1).1

/-- Claim C3 (amended): `query` updates access statistics before it
executes, so when a guard-permitted query fails with `QueryError`, the
statistics of each table whose name occurs in the query text are
nonetheless already updated: the call returns the engine's error and
every referenced table's `access_count` is incremented and its
`last_accessed_at` advanced to the call instant (statistics are left
untouched only when the guard itself rejects the query). -/
theorem query_tracks_before_execution
    (engine : List Char → Except (List Char) (List Row)) (nowT : Int)
    (st : DBState) (sql : List Char) (l : Nat) (msg : List Char)
    (name : List Char) (m : MetaRow)
    (hguard : validateSqlQuery sql = Except.ok ())
    (hengine : engine (rstripSemicolon (pyStrip sql)) = Except.error msg)
    (hnodup : (alistKeys st.datasets).Nodup)
    (hfind : alistFind st.datasets name = some m)
    (href : containsSub sql name = true) :
    (query engine nowT st sql l).2 = Except.error (DBError.queryError msg)
      ∧ alistFind (query engine nowT st sql l).1.datasets name
        = some (bumpMeta nowT m) := by
  have hq : query engine nowT st sql l =
      ((alistKeys st.datasets).foldl
        (fun a nm => if containsSub sql nm then trackAccess nowT a nm else a) st,
        Except.error (DBError.queryError msg)) := by
    simp [query, hguard, execWrapped, hengine]
  rw [hq]
  refine ⟨rfl, ?_⟩
  obtain ⟨l1, l2, hsplit, h1, h2⟩ :=
    exists_split_of_mem_nodup (mem_keys_of_find st.datasets name m hfind) hnodup
  rw [hsplit]
  exact fold_track_mem sql nowT l1 l2 st name m h1 h2 href hfind

/-- Witness for the amended claim C3 at the concrete failing query. -/
theorem query_tracks_before_execution_witness :
    (query c3Engine 7 c3St c3Sql 10).2
        = Except.error (DBError.queryError ("Catalog Error".toList))
      ∧ alistFind (query c3Engine 7 c3St c3Sql 10).1.datasets c3Name
        = some (bumpMeta 7 c3Meta) :=
  query_tracks_before_execution c3Engine 7 c3St c3Sql 10 ("Catalog Error".toList)
    c3Name c3Meta (by decide) (by decide) (by decide) (by decide) (by decide)

lemma alistHas_cons {α : Type} (q : List Char × α) (ps : NameMap α) (n : List Char) :
    alistHas (q :: ps) n = ((q.1 == n) || alistHas ps n) := by
  rw [alistHas, List.any_cons]
  rfl

lemma alistHas_erase {α : Type} (l : NameMap α) (k n : List Char) :
    alistHas (alistErase l k) n = (alistHas l n && !(k == n)) := by
  induction l with
  | nil => simp [alistErase, alistHas]
  | cons p ps ih =>
    rw [alistErase, List.filter_cons]
    by_cases hp : (p.1 == k) = true
    · rw [hp]
      simp only [Bool.not_true, Bool.false_eq_true, if_false]
      rw [← alistErase, ih, alistHas_cons, eq_of_beq hp]
      by_cases hkn : (k == n) = true
      · rw [hkn]
        simp
      · rw [Bool.eq_false_iff.mpr hkn]
        simp
    · rw [Bool.eq_false_iff.mpr hp]
      simp only [Bool.not_false, if_true]
      rw [← alistErase, alistHas_cons, alistHas_cons, ih]
      by_cases hpn : (p.1 == n) = true
      · have hkn : (k == n) = false := by
          rw [beq_eq_false_iff_ne]
          intro hk
          exact hp (by rw [beq_iff_eq, eq_of_beq hpn, hk])
        rw [hpn, hkn]
        simp
      · rw [Bool.eq_false_iff.mpr hpn]
        simp

lemma alistHas_map_keyfix {α : Type} (l : NameMap α) (k n : List Char) (v : α) :
    alistHas (l.map fun p => if p.1 == k then (p.1, v) else p) n = alistHas l n := by
  induction l with
  | nil => rfl
  | cons p ps ih =>
    rw [List.map_cons, alistHas_cons, alistHas_cons, ih]
    by_cases hp : (p.1 == k) = true
    · rw [if_pos hp]
    · rw [if_neg hp]

lemma alistHas_set {α : Type} (l : NameMap α) (k : List Char) (v : α) (n : List Char) :
    alistHas (alistSet l k v) n = (alistHas l n || (k == n)) := by
  unfold alistSet
  by_cases h : alistHas l k = true
  · rw [if_pos h, alistHas_map_keyfix]
    by_cases hkn : (k == n) = true
    · rw [hkn, Bool.or_true, ← eq_of_beq hkn]
      exact h
    · rw [Bool.eq_false_iff.mpr hkn, Bool.or_false]
  · rw [if_neg h, alistHas, List.any_append, ← alistHas]
    congr 1
    rw [List.any_cons, List.any_nil, Bool.or_false]

lemma any_key_and {α : Type} (l : NameMap α) (n : List Char) (c : List Char → Bool) :
    (l.any fun p => (p.1 == n) && c p.1) = (alistHas l n && c n) := by
  induction l with
  | nil => simp [alistHas]
  | cons p ps ih =>
    rw [List.any_cons, ih, alistHas_cons]
    by_cases hp : (p.1 == n) = true
    · rw [hp, eq_of_beq hp]
      cases hc : c n <;> simp [hc]
    · rw [Bool.eq_false_iff.mpr hp]
      simp

lemma loadMetadataStep_tables (acc : DBState) (p : List Char × MetaRow) :
    (loadMetadataStep acc p).tables = acc.tables := by
  unfold loadMetadataStep
  split <;> rfl

lemma loadMetadataStep_metadata (acc : DBState) (p : List Char × MetaRow) :
    (loadMetadataStep acc p).metadata =
      if alistHas acc.tables p.1 then acc.metadata else alistErase acc.metadata p.1 := by
  unfold loadMetadataStep
  split <;> simp_all

lemma loadMetadataStep_datasets (acc : DBState) (p : List Char × MetaRow) :
    (loadMetadataStep acc p).datasets =
      if alistHas acc.tables p.1 then alistSet acc.datasets p.1 p.2 else acc.datasets := by
  unfold loadMetadataStep
  split <;> simp_all

lemma load_fold_tables (l : List (List Char × MetaRow)) (acc : DBState) :
    (l.foldl loadMetadataStep acc).tables = acc.tables := by
  induction l generalizing acc with
  | nil => rfl
  | cons p ps ih => rw [List.foldl_cons, ih, loadMetadataStep_tables]

lemma load_fold_metadata_has (l : List (List Char × MetaRow)) (acc : DBState)
    (n : List Char) :
    alistHas ((l.foldl loadMetadataStep acc).metadata) n
      = (alistHas acc.metadata n
          && (alistHas acc.tables n || !(l.any fun p => p.1 == n))) := by
  induction l generalizing acc with
  | nil => simp
  | cons p ps ih =>
    rw [List.foldl_cons, ih (loadMetadataStep acc p), loadMetadataStep_tables,
      loadMetadataStep_metadata, List.any_cons]
    by_cases hp : alistHas acc.tables p.1 = true
    · rw [if_pos hp]
      by_cases hpn : (p.1 == n) = true
      · have hTn : alistHas acc.tables n = true := by
          rw [← eq_of_beq hpn]
          exact hp
        rw [hpn, hTn]
        simp
      · rw [Bool.eq_false_iff.mpr hpn]
        simp
    · rw [if_neg hp, alistHas_erase]
      by_cases hpn : (p.1 == n) = true
      · have hTn : alistHas acc.tables n = false := by
          rw [← eq_of_beq hpn]
          exact Bool.eq_false_iff.mpr hp
        rw [hpn, hTn]
        simp
      · rw [Bool.eq_false_iff.mpr hpn]
        simp

lemma load_fold_datasets_has (l : List (List Char × MetaRow)) (acc : DBState)
    (n : List Char) :
    alistHas ((l.foldl loadMetadataStep acc).datasets) n
      = (alistHas acc.datasets n
          || l.any fun p => (p.1 == n) && alistHas acc.tables p.1) := by
  induction l generalizing acc with
  | nil => simp
  | cons p ps ih =>
    rw [List.foldl_cons, ih (loadMetadataStep acc p), loadMetadataStep_tables,
      loadMetadataStep_datasets, List.any_cons]
    by_cases hp : alistHas acc.tables p.1 = true
    · rw [if_pos hp, alistHas_set, hp]
      by_cases hpn : (p.1 == n) = true
      · rw [hpn]
        simp
      · rw [Bool.eq_false_iff.mpr hpn]
        simp
    · rw [if_neg hp, Bool.eq_false_iff.mpr hp]
      simp

/-- Claim C5: after `_load_metadata` runs on a freshly opened store
(empty in-memory cache), the physical catalog is untouched, and a
metadata row for a name survives — both durably and in the in-memory
mapping — exactly when the physical table exists; an orphaned row is
deleted during loading.  Loading cannot raise on an orphan: the model
is a total function, just as the orphan branch of the source only
performs a parameterized delete. -/
theorem load_metadata_reconciles (st : DBState) (n : List Char)
    (hempty : st.datasets = []) :
    (loadMetadata st).tables = st.tables
      ∧ alistHas (loadMetadata st).metadata n
        = (alistHas st.metadata n && alistHas st.tables n)
      ∧ alistHas (loadMetadata st).datasets n
        = (alistHas st.metadata n && alistHas st.tables n) := by
  unfold loadMetadata
  refine ⟨load_fold_tables st.metadata st, ?_, ?_⟩
  · rw [load_fold_metadata_has]
    have hany : (st.metadata.any fun p => p.1 == n) = alistHas st.metadata n := rfl
    rw [hany]
    by_cases hm : alistHas st.metadata n = true
    · rw [hm]
      simp
    · rw [Bool.eq_false_iff.mpr hm]
      simp
  · rw [load_fold_datasets_has, hempty,
      any_key_and st.metadata n (fun q => alistHas st.tables q)]
    simp [alistHas]

/-- Witness for claim C5: one live row is kept, the orphaned row is
deleted, from a concrete freshly opened store. -/
theorem load_metadata_reconciles_witness :
    (loadMetadata c5St).tables = c5St.tables
      ∧ alistHas (loadMetadata c5St).metadata c5Orphan
        = (alistHas c5St.metadata c5Orphan && alistHas c5St.tables c5Orphan)
      ∧ alistHas (loadMetadata c5St).datasets c5Orphan
        = (alistHas c5St.metadata c5Orphan && alistHas c5St.tables c5Orphan) :=
  load_metadata_reconciles c5St c5Orphan (by decide)

lemma keys_nodup_unique {α : Type} {l : NameMap α} {k : List Char} {a b : α}
    (hnd : (alistKeys l).Nodup) (ha : (k, a) ∈ l) (hb : (k, b) ∈ l) : a = b := by
  induction l with
  | nil => cases ha
  | cons p ps ih =>
    rw [alistKeys, List.map_cons, List.nodup_cons] at hnd
    rcases List.mem_cons.mp ha with ha1 | ha1
    · rcases List.mem_cons.mp hb with hb1 | hb1
      · rw [← ha1] at hb1
        injection hb1 with h1 h2
        exact h2.symm
      · exfalso
        subst ha1
        have hkmem : k ∈ ps.map Prod.fst := List.mem_map_of_mem Prod.fst hb1
        exact hnd.1 hkmem
    · rcases List.mem_cons.mp hb with hb1 | hb1
      · exfalso
        subst hb1
        have hkmem : k ∈ ps.map Prod.fst := List.mem_map_of_mem Prod.fst ha1
        exact hnd.1 hkmem
      · exact ih hnd.2 ha1 hb1

/-- Claim C6: phase 1 (age eviction) of `cleanup_cache` selects a
cached table for dropping exactly when its `last_accessed_at` is older
than `now - max_age_days` and it is not exempt, where a table is exempt
when `keep_frequently_used` holds and its `access_count` reaches
`min_access_count`. -/
theorem cleanup_age_phase_iff (nowT maxAgeDays : Int) (keep : Bool) (minAcc : Nat)
    (ds : NameMap MetaRow) (name : List Char) (m : MetaRow)
    (hmem : (name, m) ∈ ds) (hnodup : (alistKeys ds).Nodup) :
    name ∈ ageTablesToRemove nowT maxAgeDays keep minAcc ds
      ↔ (m.last_accessed_at < nowT - maxAgeDays
          ∧ ¬(keep = true ∧ minAcc ≤ m.access_count)) := by
  unfold ageTablesToRemove
  rw [List.mem_map]
  constructor
  · rintro ⟨p, hp, hfst⟩
    rw [List.mem_filter] at hp
    rcases p with ⟨pk, pv⟩
    rcases hp with ⟨hmem2, hcond⟩
    dsimp only at hfst hcond
    subst hfst
    have hv : pv = m := keys_nodup_unique hnodup hmem2 hmem
    subst hv
    rw [Bool.and_eq_true] at hcond
    refine ⟨of_decide_eq_true hcond.2, ?_⟩
    rintro ⟨hk, hle⟩
    have hex : exemptB keep minAcc pv = true := by
      unfold exemptB
      rw [hk, decide_eq_true hle]
      rfl
    have hne := hcond.1
    rw [hex] at hne
    exact absurd hne (by decide)
  · rintro ⟨hlt, hnex⟩
    refine ⟨(name, m), List.mem_filter.mpr ⟨hmem, ?_⟩, rfl⟩
    rw [Bool.and_eq_true]
    constructor
    · cases hx : exemptB keep minAcc m with
      | false => rfl
      | true =>
        exfalso
        unfold exemptB at hx
        rw [Bool.and_eq_true] at hx
        exact hnex ⟨hx.1, of_decide_eq_true hx.2⟩
    · exact decide_eq_true hlt

/-- Witness for claim C6: with `A` accessed 20 days ago at access
count 1 and `B` accessed 20 days ago at access count 10,
`cleanup(max_age_days=14, min_access_count=5, keep_frequently_used=True)`
selects `A` for dropping in its first phase and retains `B`. -/
theorem cleanup_age_phase_iff_witness :
    c6A ∈ ageTablesToRemove 0 14 true 5 c6Ds
      ∧ c6B ∉ ageTablesToRemove 0 14 true 5 c6Ds := by
  constructor
  · exact (cleanup_age_phase_iff 0 14 true 5 c6Ds c6A c6MA (by decide)
      (by decide)).mpr (by decide)
  · intro h
    exact absurd ((cleanup_age_phase_iff 0 14 true 5 c6Ds c6B c6MB (by decide)
      (by decide)).mp h) (by decide)

set_option maxRecDepth 16000

/-- Claim C7: three cached tables of the same session with identical
schemas and pairwise-disjoint, internally duplicate-free row sets of
three rows each are consolidated by `consolidate(session, max_tables=5)`
into exactly one new table holding their deduplicated union of 9 rows;
a metadata row is recorded for it with the synthetic `consolidated`
sub-identifier and `row_count = 9`, and none of the three original
tables exists afterwards. -/
theorem consolidate_three_disjoint (r1 r2 r3 : List Row)
    (h1 : r1.Nodup) (h2 : r2.Nodup) (h3 : r3.Nodup)
    (hl1 : r1.length = 3) (hl2 : r2.length = 3) (hl3 : r3.length = 3)
    (d12 : ∀ a ∈ r1, a ∉ r2) (d13 : ∀ a ∈ r1, a ∉ r3)
    (d23 : ∀ a ∈ r2, a ∉ r3) :
    consolidateDatasets 5 c7Ts (some ("s1".toList)) 5 (c7State r1 r2 r3)
      = ({ tables := [(c7ConsName, c7ConsTable r1 r2 r3)],
           metadata := [(c7ConsName, c7ConsMeta r1 r2 r3)],
           datasets := [(c7ConsName, c7ConsMeta r1 r2 r3)] }, 1, 0)
      ∧ (c7ConsTable r1 r2 r3).rows.length = 9
      ∧ (c7ConsMeta r1 r2 r3).row_count = 9
      ∧ (c7ConsMeta r1 r2 r3).message_group_id = "consolidated".toList
      ∧ alistHas [(c7ConsName, c7ConsTable r1 r2 r3)] c7N1 = false
      ∧ alistHas [(c7ConsName, c7ConsTable r1 r2 r3)] c7N2 = false
      ∧ alistHas [(c7ConsName, c7ConsTable r1 r2 r3)] c7N3 = false := by
  have hdisj12 : r1.Disjoint r2 := by
    intro a ha hb
    exact d12 a ha hb
  have hdisj3 : (r1 ++ r2).Disjoint r3 := by
    intro a ha hb
    rcases List.mem_append.mp ha with h | h
    · exact d13 a h hb
    · exact d23 a h hb
  have hnd : (r1 ++ r2 ++ r3).Nodup := ((h1.append h2 hdisj12).append h3 hdisj3)
  have h9 : (r1 ++ r2 ++ r3).dedup.length = 9 := by
    rw [List.dedup_eq_self.mpr hnd]
    simp [hl1, hl2, hl3]
  have hstate : (consolidateDatasets 5 c7Ts (some ("s1".toList)) 5 (c7State r1 r2 r3)).1
      = { tables := [(c7ConsName,
            { schema := c7Schema, rows := (r1 ++ (r2 ++ (r3 ++ []))).dedup,
              estimatedSize := 0 })],
          metadata := [(c7ConsName,
            { chat_id := "s1".toList, message_group_id := "consolidated".toList,
              question := consolidatedQuestion 3, sql_query := [],
              created_at := 5, last_accessed_at := 5, access_count := 0,
              row_count := (r1 ++ (r2 ++ (r3 ++ []))).dedup.length, column_count := 2,
              columns := ["id".toList, "val".toList], dtypes := [],
              size_bytes := (r1 ++ (r2 ++ (r3 ++ []))).dedup.length * 2 * 50 })],
          datasets := [(c7ConsName,
            { chat_id := "s1".toList, message_group_id := "consolidated".toList,
              question := consolidatedQuestion 3, sql_query := [],
              created_at := 5, last_accessed_at := 5, access_count := 0,
              row_count := (r1 ++ (r2 ++ (r3 ++ []))).dedup.length, column_count := 2,
              columns := ["id".toList, "val".toList], dtypes := [],
              size_bytes := (r1 ++ (r2 ++ (r3 ++ []))).dedup.length * 2 * 50 })] } := rfl
  have hcount : (consolidateDatasets 5 c7Ts (some ("s1".toList)) 5 (c7State r1 r2 r3)).2.1
      = 1 := rfl
  have hsaved : (consolidateDatasets 5 c7Ts (some ("s1".toList)) 5 (c7State r1 r2 r3)).2.2
      = 3000 / 1024 / 1024 := rfl
  refine ⟨?_, ?_, ?_, rfl, ?_, ?_, ?_⟩
  · calc consolidateDatasets 5 c7Ts (some ("s1".toList)) 5 (c7State r1 r2 r3)
        = ((consolidateDatasets 5 c7Ts (some ("s1".toList)) 5 (c7State r1 r2 r3)).1,
           (consolidateDatasets 5 c7Ts (some ("s1".toList)) 5 (c7State r1 r2 r3)).2.1,
           (consolidateDatasets 5 c7Ts (some ("s1".toList)) 5 (c7State r1 r2 r3)).2.2) := rfl
      _ = _ := by
          rw [hstate, hcount, hsaved,
            show (3000 : Nat) / 1024 / 1024 = 0 from by decide]
          simp [c7ConsTable, c7ConsMeta]
  · rw [c7ConsTable]
    exact h9
  · rw [c7ConsMeta]
    exact h9
  · rw [alistHas_cons]
    rw [show (c7ConsName == c7N1) = false from by decide]
    rfl
  · rw [alistHas_cons]
    rw [show (c7ConsName == c7N2) = false from by decide]
    rfl
  · rw [alistHas_cons]
    rw [show (c7ConsName == c7N3) = false from by decide]
    rfl

/-- Witness for claim C7 at three concrete disjoint three-row tables. -/
theorem consolidate_three_disjoint_witness :
    consolidateDatasets 5 c7Ts (some ("s1".toList)) 5 (c7State c7R1 c7R2 c7R3)
      = ({ tables := [(c7ConsName, c7ConsTable c7R1 c7R2 c7R3)],
           metadata := [(c7ConsName, c7ConsMeta c7R1 c7R2 c7R3)],
           datasets := [(c7ConsName, c7ConsMeta c7R1 c7R2 c7R3)] }, 1, 0)
      ∧ (c7ConsTable c7R1 c7R2 c7R3).rows.length = 9
      ∧ (c7ConsMeta c7R1 c7R2 c7R3).row_count = 9
      ∧ (c7ConsMeta c7R1 c7R2 c7R3).message_group_id = "consolidated".toList
      ∧ alistHas [(c7ConsName, c7ConsTable c7R1 c7R2 c7R3)] c7N1 = false
      ∧ alistHas [(c7ConsName, c7ConsTable c7R1 c7R2 c7R3)] c7N2 = false
      ∧ alistHas [(c7ConsName, c7ConsTable c7R1 c7R2 c7R3)] c7N3 = false :=
  consolidate_three_disjoint c7R1 c7R2 c7R3 (by decide) (by decide) (by decide)
    (by decide) (by decide) (by decide) (by decide) (by decide) (by decide)

end DuckDBManager



